import Mathlib

/-!
Shallow embedding of `src/tools/btgatt-client.c` (BlueZ GATT client tool).

The file models:
  * the connector `l2cap_le_att_connect` (lines 73-139) as a pure function
    over an oracle of syscall outcomes, producing the returned descriptor
    and a trace of the syscalls it issued, in order;
  * the console callback `prompt_read_cb` (lines 53-71) as a function of
    the epoll event mask and of the `getline` outcome;
  * `main` (lines 168-296) as option processing over an already-lexed list
    of command-line options followed by the setup sequence, again with an
    event trace.

Numeric constants are taken from the Linux / BlueZ headers the file
includes (`<bluetooth/bluetooth.h>`, `<bluetooth/l2cap.h>`, `<sys/epoll.h>`).
-/

/-- `#define ATT_CID 4` (line 43). -/
def ATT_CID : Nat := 4

/-- `BT_SECURITY_LOW` from `<bluetooth/bluetooth.h>`. -/
def BT_SECURITY_LOW : Nat := 1

/-- `BT_SECURITY_MEDIUM` from `<bluetooth/bluetooth.h>`. -/
def BT_SECURITY_MEDIUM : Nat := 2

/-- `BT_SECURITY_HIGH` from `<bluetooth/bluetooth.h>`. -/
def BT_SECURITY_HIGH : Nat := 3

/-- `BDADDR_LE_PUBLIC` from `<bluetooth/bluetooth.h>`. -/
def BDADDR_LE_PUBLIC : Nat := 1

/-- `BDADDR_LE_RANDOM` from `<bluetooth/bluetooth.h>`. -/
def BDADDR_LE_RANDOM : Nat := 2

/-- `PF_BLUETOOTH` socket domain. -/
def PF_BLUETOOTH : Nat := 31

/-- `AF_BLUETOOTH` address family (equal to `PF_BLUETOOTH`). -/
def AF_BLUETOOTH : Nat := 31

/-- `SOCK_SEQPACKET` socket kind (connection-oriented, sequenced packets). -/
def SOCK_SEQPACKET : Nat := 5

/-- `BTPROTO_L2CAP` protocol number. -/
def BTPROTO_L2CAP : Nat := 0

/-- `SOL_BLUETOOTH` socket option level. -/
def SOL_BLUETOOTH : Nat := 274

/-- `BT_SECURITY` socket option name. -/
def BT_SECURITY : Nat := 4

/-- `EPOLLIN` from `<sys/epoll.h>`. -/
def EPOLLIN : Nat := 1

/-- `EPOLLERR` from `<sys/epoll.h>`. -/
def EPOLLERR : Nat := 8

/-- `EPOLLHUP` from `<sys/epoll.h>`. -/
def EPOLLHUP : Nat := 16

/-- `EPOLLRDHUP` from `<sys/epoll.h>`. -/
def EPOLLRDHUP : Nat := 8192

/-- `EXIT_SUCCESS`. -/
def EXIT_SUCCESS : Int := 0

/-- `EXIT_FAILURE`. -/
def EXIT_FAILURE : Int := 1

/-- `htobs`: host to Bluetooth (little-endian) byte order for a 16-bit
value; the identity on little-endian hosts, which is the representation
modelled here.  The stored value is the logical channel identifier. -/
def htobs (x : Nat) : Nat := x

/-- A `bdaddr_t`: 6-byte Bluetooth device address, modelled abstractly as
its numeric value. -/
structure bdaddr_t where
  val : Nat
deriving DecidableEq, Repr

/-- `BDADDR_ANY`: the all-zero address. -/
def BDADDR_ANY : bdaddr_t := ⟨0⟩

/-- `struct sockaddr_l2` as filled in by `l2cap_le_att_connect`. -/
structure sockaddr_l2 where
  l2_family : Nat
  l2_cid : Nat
  l2_bdaddr_type : Nat
  l2_bdaddr : bdaddr_t
deriving DecidableEq, Repr

/-- Outcomes of the four syscalls `l2cap_le_att_connect` performs, in the
order it performs them.  `socketRes` is the return of `socket()` (a
descriptor if nonnegative, an error if negative); `bindRes` and
`connectRes` are the returns of `bind()` / `connect()` (negative means
failure); `setsockoptRes` is the return of `setsockopt()` (nonzero means
failure, matching the `!= 0` test at line 113). -/
structure SysEnv where
  socketRes : Int
  bindRes : Int
  setsockoptRes : Int
  connectRes : Int
deriving DecidableEq, Repr

/-- One observable syscall performed by the connector. -/
inductive SysEvent where
  | socketCall (domain typ proto : Nat)
  | bindCall (fd : Int) (addr : sockaddr_l2)
  | setsockoptCall (fd : Int) (level optname : Nat) (secLevel : Nat)
  | connectCall (fd : Int) (addr : sockaddr_l2)
  | closeCall (fd : Int)
deriving DecidableEq, Repr

/-- `l2cap_le_att_connect` (lines 73-139): socket, bind, setsockopt
(security level), connect — each checked in turn; on a failure after the
socket exists the socket is closed and `-1` is returned; on success the
socket descriptor is returned.  The result is the returned `int` paired
with the trace of syscalls issued. -/
def l2cap_le_att_connect (env : SysEnv) (src dst : bdaddr_t)
    (dst_type : Nat) (sec : Nat) : Int × List SysEvent :=
  let sock := env.socketRes
  let ev0 := [SysEvent.socketCall PF_BLUETOOTH SOCK_SEQPACKET BTPROTO_L2CAP]
  if sock < 0 then
    (-1, ev0)
  else
    let srcaddr : sockaddr_l2 :=
      { l2_family := AF_BLUETOOTH, l2_cid := htobs ATT_CID,
        l2_bdaddr_type := 0, l2_bdaddr := src }
    let ev1 := ev0 ++ [SysEvent.bindCall sock srcaddr]
    if env.bindRes < 0 then
      (-1, ev1 ++ [SysEvent.closeCall sock])
    else
      let ev2 := ev1 ++ [SysEvent.setsockoptCall sock SOL_BLUETOOTH BT_SECURITY sec]
      if env.setsockoptRes ≠ 0 then
        (-1, ev2 ++ [SysEvent.closeCall sock])
      else
        let dstaddr : sockaddr_l2 :=
          { l2_family := AF_BLUETOOTH, l2_cid := htobs ATT_CID,
            l2_bdaddr_type := dst_type, l2_bdaddr := dst }
        let ev3 := ev2 ++ [SysEvent.connectCall sock dstaddr]
        if env.connectRes < 0 then
          (-1, ev3 ++ [SysEvent.closeCall sock])
        else
          (sock, ev3)

/-- What `prompt_read_cb` (lines 53-71) does on one invocation:
either it calls `mainloop_quit`, or it returns without doing anything
(the `getline` failure path at line 63-64), or it echoes the line read
and re-prints the prompt. -/
inductive PromptAction where
  | quitLoop
  | returnNoAction
  | echoLine (line : String)
deriving DecidableEq, Repr

/-- `prompt_read_cb` (lines 53-71): `events` is the epoll readiness mask;
`getlineRes` is the outcome of `getline` on `stdin` (`none` when it
returns `-1`, i.e. end-of-input or error). -/
def prompt_read_cb (events : Nat) (getlineRes : Option String) : PromptAction :=
  if events &&& (EPOLLRDHUP ||| EPOLLHUP ||| EPOLLERR) ≠ 0 then
    PromptAction.quitLoop
  else
    match getlineRes with
    | none => PromptAction.returnNoAction
    | some line => PromptAction.echoLine line

/-- The descriptor `fileno(stdin)`. -/
def STDIN_FD : Int := 0

/-- The interest mask `EPOLLIN | EPOLLRDHUP | EPOLLHUP | EPOLLERR` passed
to `mainloop_add_fd` at lines 284-285. -/
def consoleMask : Nat := EPOLLIN ||| EPOLLRDHUP ||| EPOLLHUP ||| EPOLLERR

/-- The callbacks `main` could hand to the event loop. -/
inductive Callback where
  | promptReadCb
deriving DecidableEq, Repr

/-- One command-line option as delivered by `getopt_long` to the `switch`
at lines 181-249.  `mtu` carries the `atoi(optarg)` result (line 203);
`invalid` is the `default` case (an option `getopt` rejected). -/
inductive Opt where
  | help
  | verbose
  | secLevel (s : String)
  | mtu (arg : Int)
  | typ (s : String)
  | dest (s : String)
  | adapter (s : String)
  | invalid
deriving DecidableEq, Repr

/-- The local variables of `main` mutated by the option loop
(lines 171-176, plus the file-scoped `verbose` flag at line 45). -/
structure Config where
  sec : Nat
  mtu : Nat
  dst_type : Nat
  dst_addr_given : Bool
  dst_addr : bdaddr_t
  dev_id : Int
  verbose : Bool
deriving DecidableEq, Repr

/-- Initial values at lines 171-176: `sec = BT_SECURITY_LOW`, `mtu = 0`,
`dst_type = BDADDR_LE_PUBLIC`, `dst_addr_given = false`, `dev_id = -1`. -/
def initConfig : Config :=
  { sec := BT_SECURITY_LOW, mtu := 0, dst_type := BDADDR_LE_PUBLIC,
    dst_addr_given := false, dst_addr := ⟨0⟩, dev_id := -1, verbose := false }

/-- Outcomes of the external library calls `main` makes, plus the syscall
oracle for the connector.  `str2ba s` is `none` when `str2ba` returns a
negative value (unparseable address, line 229); `hci_devid s` is the
adapter id (negative on failure, line 239-240); `hci_devba d` is `none`
when `hci_devba` fails (line 268); `addFdRes` is the return of
`mainloop_add_fd` (negative on failure, line 284). -/
structure MainEnv where
  str2ba : String → Option bdaddr_t
  hci_devid : String → Int
  hci_devba : Int → Option bdaddr_t
  sys : SysEnv
  addFdRes : Int

/-- Observable events of `main` after option processing. -/
inductive MainEvent where
  | mainloopInit
  | sys (e : SysEvent)
  | addFd (fd : Int) (mask : Nat) (cb : Callback)
  | runLoop
deriving DecidableEq, Repr

/-- One iteration of the `switch` at lines 181-249: either the processed
configuration, or an early `return` with the given exit status.
`help` prints usage and returns `EXIT_SUCCESS` (lines 182-184); every
rejected argument returns `EXIT_FAILURE`. -/
def processOpt (env : MainEnv) (c : Config) : Opt → Except Int Config
  | Opt.help => Except.error EXIT_SUCCESS
  | Opt.verbose => Except.ok { c with verbose := true }
  | Opt.secLevel s =>
      if s = "low" then Except.ok { c with sec := BT_SECURITY_LOW }
      else if s = "medium" then Except.ok { c with sec := BT_SECURITY_MEDIUM }
      else if s = "high" then Except.ok { c with sec := BT_SECURITY_HIGH }
      else Except.error EXIT_FAILURE
  | Opt.mtu arg =>
      if arg ≤ 0 then Except.error EXIT_FAILURE
      else if arg > 65535 then Except.error EXIT_FAILURE
      else Except.ok { c with mtu := arg.toNat }
  | Opt.typ s =>
      if s = "random" then Except.ok { c with dst_type := BDADDR_LE_RANDOM }
      else if s = "public" then Except.ok { c with dst_type := BDADDR_LE_PUBLIC }
      else Except.error EXIT_FAILURE
  | Opt.dest s =>
      match env.str2ba s with
      | none => Except.error EXIT_FAILURE
      | some a => Except.ok { c with dst_addr := a, dst_addr_given := true }
  | Opt.adapter s =>
      let d := env.hci_devid s
      if d < 0 then Except.error EXIT_FAILURE
      else Except.ok { c with dev_id := d }
  | Opt.invalid => Except.error EXIT_FAILURE

/-- The whole `while (getopt_long ...)` loop (lines 179-250) over the
lexed option list. -/
def parseOpts (env : MainEnv) : Config → List Opt → Except Int Config
  | c, [] => Except.ok c
  | c, o :: rest =>
      match processOpt env c o with
      | Except.error e => Except.error e
      | Except.ok c2 => parseOpts env c2 rest

/-- `main` after the option loop (lines 252-295): the leftover-argument
check (lines 261-264), local-address resolution (lines 266-271), the
destination-address requirement (lines 273-276), `mainloop_init`, the
connect, the console registration and `mainloop_run`. -/
def mainAfterParse (env : MainEnv) (c : Config) (leftoverArgs : Bool) :
    Int × List MainEvent :=
  if leftoverArgs then (EXIT_SUCCESS, [])
  else
    let srcRes : Option bdaddr_t :=
      if c.dev_id = -1 then some BDADDR_ANY else env.hci_devba c.dev_id
    match srcRes with
    | none => (EXIT_FAILURE, [])
    | some src =>
      if !c.dst_addr_given then (EXIT_FAILURE, [])
      else
        let ev0 := [MainEvent.mainloopInit]
        let r := l2cap_le_att_connect env.sys src c.dst_addr c.dst_type c.sec
        let ev1 := ev0 ++ r.2.map MainEvent.sys
        if r.1 < 0 then (EXIT_FAILURE, ev1)
        else
          let ev2 := ev1 ++ [MainEvent.addFd STDIN_FD consoleMask Callback.promptReadCb]
          if env.addFdRes < 0 then (EXIT_FAILURE, ev2)
          else (EXIT_SUCCESS, ev2 ++ [MainEvent.runLoop])

/-- `main` (lines 168-296).  `opts` is the lexed option list consumed by
the `getopt_long` loop; `leftoverArgs` is whether non-option arguments
remain after the loop (line 261: usage is printed and `EXIT_SUCCESS`
returned).  The `if (!argc)` check at line 252 is omitted: `argc` is the
process argument count, which is at least 1 in any execution.  The result
is the exit status paired with the trace of events after option
processing. -/
def mainRun (env : MainEnv) (opts : List Opt) (leftoverArgs : Bool) :
    Int × List MainEvent :=
  match parseOpts env initConfig opts with
  | Except.error e => (e, [])
  | Except.ok c => mainAfterParse env c leftoverArgs

/-- Is this event a `socket()` call? -/
def SysEvent.isSocket : SysEvent → Bool
  | SysEvent.socketCall _ _ _ => true
  | _ => false

/-- Is this event a `connect()` call? -/
def SysEvent.isConnect : SysEvent → Bool
  | SysEvent.connectCall _ _ => true
  | _ => false

/-- Is this main event a `socket()` call (inside the connector trace)? -/
def MainEvent.isSocket : MainEvent → Bool
  | MainEvent.sys e => e.isSocket
  | _ => false

/-- Is this main event a registration with the event loop? -/
def MainEvent.isAddFd : MainEvent → Bool
  | MainEvent.addFd _ _ _ => true
  | _ => false

/-- The descriptors `main` registers with the event loop, in order. -/
def registeredFds (tr : List MainEvent) : List Int :=
  tr.filterMap fun e =>
    match e with
    | MainEvent.addFd fd _ _ => some fd
    | _ => none

/-- The step kind of a connector syscall, for stating the fixed order. -/
inductive StepKind where
  | sockS
  | bindS
  | ssoS
  | connS
  | closeS
deriving DecidableEq, Repr

/-- Classify a connector event by step kind. -/
def stepKind : SysEvent → StepKind
  | SysEvent.socketCall _ _ _ => StepKind.sockS
  | SysEvent.bindCall _ _ => StepKind.bindS
  | SysEvent.setsockoptCall _ _ _ _ => StepKind.ssoS
  | SysEvent.connectCall _ _ => StepKind.connS
  | SysEvent.closeCall _ => StepKind.closeS

/-- The source address structure the connector binds (lines 97-102):
family `AF_BLUETOOTH`, channel `htobs(ATT_CID)`, address type `0`. -/
def srcaddrOf (src : bdaddr_t) : sockaddr_l2 :=
  { l2_family := AF_BLUETOOTH, l2_cid := htobs ATT_CID,
    l2_bdaddr_type := 0, l2_bdaddr := src }

/-- The destination address structure the connector connects to
(lines 120-125): family `AF_BLUETOOTH`, channel `htobs(ATT_CID)`,
address type as requested. -/
def dstaddrOf (dst : bdaddr_t) (dst_type : Nat) : sockaddr_l2 :=
  { l2_family := AF_BLUETOOTH, l2_cid := htobs ATT_CID,
    l2_bdaddr_type := dst_type, l2_bdaddr := dst }

/-- Closed form of the connector: its result and trace in each of the five
control-flow cases of lines 91-138. -/
theorem l2cap_le_att_connect_eq (env : SysEnv) (src dst : bdaddr_t) (t s : Nat) :
    l2cap_le_att_connect env src dst t s =
      if env.socketRes < 0 then
        (-1, [SysEvent.socketCall PF_BLUETOOTH SOCK_SEQPACKET BTPROTO_L2CAP])
      else if env.bindRes < 0 then
        (-1, [SysEvent.socketCall PF_BLUETOOTH SOCK_SEQPACKET BTPROTO_L2CAP,
              SysEvent.bindCall env.socketRes (srcaddrOf src),
              SysEvent.closeCall env.socketRes])
      else if env.setsockoptRes ≠ 0 then
        (-1, [SysEvent.socketCall PF_BLUETOOTH SOCK_SEQPACKET BTPROTO_L2CAP,
              SysEvent.bindCall env.socketRes (srcaddrOf src),
              SysEvent.setsockoptCall env.socketRes SOL_BLUETOOTH BT_SECURITY s,
              SysEvent.closeCall env.socketRes])
      else if env.connectRes < 0 then
        (-1, [SysEvent.socketCall PF_BLUETOOTH SOCK_SEQPACKET BTPROTO_L2CAP,
              SysEvent.bindCall env.socketRes (srcaddrOf src),
              SysEvent.setsockoptCall env.socketRes SOL_BLUETOOTH BT_SECURITY s,
              SysEvent.connectCall env.socketRes (dstaddrOf dst t),
              SysEvent.closeCall env.socketRes])
      else
        (env.socketRes,
             [SysEvent.socketCall PF_BLUETOOTH SOCK_SEQPACKET BTPROTO_L2CAP,
              SysEvent.bindCall env.socketRes (srcaddrOf src),
              SysEvent.setsockoptCall env.socketRes SOL_BLUETOOTH BT_SECURITY s,
              SysEvent.connectCall env.socketRes (dstaddrOf dst t)]) := by
  rfl

/-- Every `setsockopt` call in a connector trace carries the requested
security level. -/
theorem l2cap_sso_arg (env : SysEnv) (src dst : bdaddr_t) (t s : Nat) :
    ∀ fd lv optname sl, SysEvent.setsockoptCall fd lv optname sl ∈
      (l2cap_le_att_connect env src dst t s).2 → sl = s := by
  rw [l2cap_le_att_connect_eq]
  split_ifs <;> intro fd lv optname sl h <;> simp_all

/-- Every `connect` call in a connector trace uses exactly the destination
address structure built from the requested remote address and type. -/
theorem l2cap_conn_arg (env : SysEnv) (src dst : bdaddr_t) (t s : Nat) :
    ∀ fd a, SysEvent.connectCall fd a ∈
      (l2cap_le_att_connect env src dst t s).2 → a = dstaddrOf dst t := by
  rw [l2cap_le_att_connect_eq]
  split_ifs <;> intro fd a h <;> simp_all

/-- Every `bind` call in a connector trace uses exactly the source address
structure built from the local address. -/
theorem l2cap_bind_arg (env : SysEnv) (src dst : bdaddr_t) (t s : Nat) :
    ∀ fd a, SysEvent.bindCall fd a ∈
      (l2cap_le_att_connect env src dst t s).2 → a = srcaddrOf src := by
  rw [l2cap_le_att_connect_eq]
  split_ifs <;> intro fd a h <;> simp_all

/-- **C3.** A single connect call produces exactly one of a nonnegative
channel descriptor or the error result `-1`, never both and never
neither; on every failure path reached after the socket was allocated,
the socket is closed as the last action before the error is returned;
and exactly one `socket()` call and at most one `connect()` call occur —
no retry. -/
theorem connect_exactly_one_outcome_no_retry (env : SysEnv) (src dst : bdaddr_t)
    (t s : Nat) :
    ((l2cap_le_att_connect env src dst t s).1 = -1 ∨
      0 ≤ (l2cap_le_att_connect env src dst t s).1) ∧
    ¬((l2cap_le_att_connect env src dst t s).1 = -1 ∧
      0 ≤ (l2cap_le_att_connect env src dst t s).1) ∧
    ((l2cap_le_att_connect env src dst t s).1 = -1 → 0 ≤ env.socketRes →
      (l2cap_le_att_connect env src dst t s).2.getLast? =
        some (SysEvent.closeCall env.socketRes)) ∧
    ((l2cap_le_att_connect env src dst t s).2.filter SysEvent.isSocket).length = 1 ∧
    ((l2cap_le_att_connect env src dst t s).2.filter SysEvent.isConnect).length ≤ 1 := by
  rw [l2cap_le_att_connect_eq]
  split_ifs with h1 h2 h3 h4 <;>
    refine ⟨?_, ?_, ?_, ?_, ?_⟩ <;>
    simp_all [SysEvent.isSocket, SysEvent.isConnect, List.getLast?] <;>
    omega

/-- Witness for C3: with `socket() = 3` and a failing `bind`, the result
is `-1` and the trace ends by closing descriptor 3. -/
theorem connect_exactly_one_outcome_no_retry_witness :
    (l2cap_le_att_connect ⟨3, -1, 0, 0⟩ ⟨1⟩ ⟨2⟩ 1 1).2.getLast? =
      some (SysEvent.closeCall 3) := by
  have h := connect_exactly_one_outcome_no_retry ⟨3, -1, 0, 0⟩ ⟨1⟩ ⟨2⟩ 1 1
  exact h.2.2.1 (by decide) (by decide)

/-- **C4.** The connector performs its syscalls in the fixed order
socket, bind, setsockopt(security), connect; a failure at any step stops
the sequence (followed only by the close of the socket), so the step
sequence is always one of five shapes; if setting the security level
fails the connect is never attempted; and the result is a success exactly
when all four steps ran and none failed. -/
theorem connect_step_order (env : SysEnv) (src dst : bdaddr_t) (t s : Nat) :
    ((l2cap_le_att_connect env src dst t s).2.map stepKind ∈
      ([[StepKind.sockS],
        [StepKind.sockS, StepKind.bindS, StepKind.closeS],
        [StepKind.sockS, StepKind.bindS, StepKind.ssoS, StepKind.closeS],
        [StepKind.sockS, StepKind.bindS, StepKind.ssoS, StepKind.connS,
          StepKind.closeS],
        [StepKind.sockS, StepKind.bindS, StepKind.ssoS, StepKind.connS]] :
        List (List StepKind))) ∧
    (env.setsockoptRes ≠ 0 →
      StepKind.connS ∉ (l2cap_le_att_connect env src dst t s).2.map stepKind) ∧
    (0 ≤ (l2cap_le_att_connect env src dst t s).1 ↔
      (l2cap_le_att_connect env src dst t s).2.map stepKind =
        [StepKind.sockS, StepKind.bindS, StepKind.ssoS, StepKind.connS]) := by
  rw [l2cap_le_att_connect_eq]
  split_ifs with h1 h2 h3 h4 <;>
    refine ⟨?_, ?_, ?_⟩ <;>
    simp_all [stepKind]

/-- Witness for C4: with a failing `setsockopt`, no `connect` step appears
in the trace. -/
theorem connect_step_order_witness :
    StepKind.connS ∉ (l2cap_le_att_connect ⟨3, 0, -1, 0⟩ ⟨1⟩ ⟨2⟩ 1 1).2.map stepKind :=
  (connect_step_order ⟨3, 0, -1, 0⟩ ⟨1⟩ ⟨2⟩ 1 1).2.1 (by decide)

/-- **C10.** Every `bind` in a connect attempt uses channel identifier 4
(ATT) and local address type 0, whatever remote type was requested; the
requested remote address type appears only in the destination structure
handed to `connect`, which also targets channel 4. -/
theorem bind_fixed_cid_and_local_type (env : SysEnv) (src dst : bdaddr_t)
    (t s : Nat) :
    (∀ fd a, SysEvent.bindCall fd a ∈ (l2cap_le_att_connect env src dst t s).2 →
      a.l2_cid = 4 ∧ a.l2_bdaddr_type = 0 ∧ a.l2_bdaddr = src) ∧
    (∀ fd a, SysEvent.connectCall fd a ∈ (l2cap_le_att_connect env src dst t s).2 →
      a.l2_cid = 4 ∧ a.l2_bdaddr_type = t ∧ a.l2_bdaddr = dst) := by
  constructor
  · intro fd a ha
    have h := l2cap_bind_arg env src dst t s fd a ha
    subst h
    exact ⟨rfl, rfl, rfl⟩
  · intro fd a ha
    have h := l2cap_conn_arg env src dst t s fd a ha
    subst h
    exact ⟨rfl, rfl, rfl⟩

/-- Witness for C10: in a fully successful attempt with remote type
`random`, the bound source structure uses channel 4 and local type 0. -/
theorem bind_fixed_cid_and_local_type_witness :
    (srcaddrOf ⟨5⟩).l2_cid = 4 ∧ (srcaddrOf ⟨5⟩).l2_bdaddr_type = 0 ∧
      (srcaddrOf ⟨5⟩).l2_bdaddr = ⟨5⟩ :=
  (bind_fixed_cid_and_local_type ⟨3, 0, 0, 0⟩ ⟨5⟩ ⟨2⟩ 2 1).1 3 (srcaddrOf ⟨5⟩)
    (by decide)

/-- If `main` reaches `mainloop_run`, every earlier check passed, so the
exit status (after the loop stops) is `EXIT_SUCCESS`. -/
theorem mainAfterParse_runLoop_success (env : MainEnv) (c : Config) (lf : Bool)
    (h : MainEvent.runLoop ∈ (mainAfterParse env c lf).2) :
    (mainAfterParse env c lf).1 = EXIT_SUCCESS := by
  by_cases hlf : lf
  · simp [mainAfterParse, hlf] at h
  · rcases hs : (if c.dev_id = -1 then some BDADDR_ANY else env.hci_devba c.dev_id)
      with _ | src
    · simp [mainAfterParse, hlf, hs] at h
    · by_cases hd : c.dst_addr_given
      · by_cases hr : (l2cap_le_att_connect env.sys src c.dst_addr c.dst_type c.sec).1 < 0
        · simp [mainAfterParse, hlf, hs, hd, hr] at h
        · by_cases ha : env.addFdRes < 0
          · simp [mainAfterParse, hlf, hs, hd, hr, ha] at h
          · simp [mainAfterParse, hlf, hs, hd, hr, ha]
      · simp [mainAfterParse, hlf, hs, hd] at h

/-- **C2 counterexample.** With only `EPOLLIN` set (console readable) and
`getline` reporting end-of-input, the console callback returns without
calling `mainloop_quit`: observing EOF alone does not terminate the loop. -/
theorem eof_alone_does_not_stop_loop :
    prompt_read_cb EPOLLIN none = PromptAction.returnNoAction ∧
    PromptAction.returnNoAction ≠ PromptAction.quitLoop := by decide

/-- **C2 (amended).** A peer-closed/hang-up/error readiness condition on
the console descriptor makes the console callback stop the loop, and
whenever `main` starts the loop the exit status after it stops is
success; but end-of-input reported by `getline` without such a readiness
condition does not stop the loop — the callback returns with no action. -/
theorem console_hangup_stops_loop (events : Nat) (gl : Option String) :
    (events &&& (EPOLLRDHUP ||| EPOLLHUP ||| EPOLLERR) ≠ 0 →
      prompt_read_cb events gl = PromptAction.quitLoop) ∧
    (events &&& (EPOLLRDHUP ||| EPOLLHUP ||| EPOLLERR) = 0 →
      prompt_read_cb events none = PromptAction.returnNoAction) ∧
    (∀ (env : MainEnv) (opts : List Opt) (lf : Bool),
      MainEvent.runLoop ∈ (mainRun env opts lf).2 →
      (mainRun env opts lf).1 = EXIT_SUCCESS) := by
  refine ⟨?_, ?_, ?_⟩
  · intro h
    simp [prompt_read_cb, h]
  · intro h
    simp [prompt_read_cb, h]
  · intro env opts lf h
    cases hp : parseOpts env initConfig opts with
    | error e =>
        simp only [mainRun, hp] at h
        exact absurd h (List.not_mem_nil _)
    | ok c =>
        simp only [mainRun, hp] at h ⊢
        exact mainAfterParse_runLoop_success env c lf h

/-- Witness for the amended C2: a hang-up readiness condition makes the
callback quit the loop. -/
theorem console_hangup_stops_loop_witness :
    prompt_read_cb EPOLLHUP (some "x") = PromptAction.quitLoop :=
  (console_hangup_stops_loop EPOLLHUP (some "x")).1 (by decide)

/-- Mapping connector events into the main trace introduces no
registrations. -/
theorem filter_addFd_map_sys (l : List SysEvent) :
    (l.map MainEvent.sys).filter MainEvent.isAddFd = [] := by
  induction l with
  | nil => rfl
  | cons a l ih => simp [MainEvent.isAddFd, ih]

/-- Whenever `main` reaches `mainloop_run`, its trace is: loop
initialization, the connector syscalls, the single console registration,
then the loop start. -/
theorem mainAfterParse_runLoop_trace (env : MainEnv) (c : Config) (lf : Bool)
    (h : MainEvent.runLoop ∈ (mainAfterParse env c lf).2) :
    ∃ src, (mainAfterParse env c lf).2 =
      (MainEvent.mainloopInit ::
        ((l2cap_le_att_connect env.sys src c.dst_addr c.dst_type c.sec).2.map
            MainEvent.sys ++
          [MainEvent.addFd STDIN_FD consoleMask Callback.promptReadCb])) ++
        [MainEvent.runLoop] := by
  by_cases hlf : lf
  · simp [mainAfterParse, hlf] at h
  · rcases hs : (if c.dev_id = -1 then some BDADDR_ANY else env.hci_devba c.dev_id)
      with _ | src
    · simp [mainAfterParse, hlf, hs] at h
    · by_cases hd : c.dst_addr_given
      · by_cases hr : (l2cap_le_att_connect env.sys src c.dst_addr c.dst_type c.sec).1 < 0
        · simp [mainAfterParse, hlf, hs, hd, hr] at h
        · by_cases ha : env.addFdRes < 0
          · simp [mainAfterParse, hlf, hs, hd, hr, ha] at h
          · refine ⟨src, ?_⟩
            simp [mainAfterParse, hlf, hs, hd, hr, ha]
      · simp [mainAfterParse, hlf, hs, hd] at h

/-- An environment in which everything succeeds: `socket()` returns
descriptor 7, `bind`/`setsockopt`/`connect`/`mainloop_add_fd` succeed,
and every address string parses to `⟨1⟩`. -/
def envOk : MainEnv :=
  { str2ba := fun _ => some ⟨1⟩, hci_devid := fun _ => -1,
    hci_devba := fun _ => none, sys := ⟨7, 0, 0, 0⟩, addFdRes := 0 }

/-- A command line giving only a destination address. -/
def optsOk : List Opt := [Opt.dest "AA:BB:CC:DD:EE:FF"]

/-- **C1 counterexample.** In a run where the connector succeeds and
returns channel descriptor 7, the loop is started with standard input
(descriptor 0) as the only registered descriptor: the channel descriptor
is never registered with the event loop. -/
theorem channel_fd_not_registered :
    (mainRun envOk optsOk false).1 = EXIT_SUCCESS ∧
    MainEvent.runLoop ∈ (mainRun envOk optsOk false).2 ∧
    (l2cap_le_att_connect envOk.sys BDADDR_ANY ⟨1⟩ BDADDR_LE_PUBLIC
        BT_SECURITY_LOW).1 = 7 ∧
    registeredFds (mainRun envOk optsOk false).2 = [STDIN_FD] ∧
    ¬ ((7 : Int) ∈ registeredFds (mainRun envOk optsOk false).2) := by
  decide

/-- **C1 (amended).** Whenever the driving process starts the event loop
(which requires the Connector to have succeeded), it has made exactly one
registration beforehand: the standard-input descriptor with the console
callback; the channel descriptor is not registered.  The loop start is
the final event, so the registration happens before the loop runs. -/
theorem only_stdin_registered (env : MainEnv) (opts : List Opt) (lf : Bool)
    (h : MainEvent.runLoop ∈ (mainRun env opts lf).2) :
    (mainRun env opts lf).2.filter MainEvent.isAddFd =
      [MainEvent.addFd STDIN_FD consoleMask Callback.promptReadCb] ∧
    (mainRun env opts lf).2.getLast? = some MainEvent.runLoop := by
  cases hp : parseOpts env initConfig opts with
  | error e =>
      simp only [mainRun, hp] at h
      exact absurd h (List.not_mem_nil _)
  | ok c =>
      simp only [mainRun, hp] at h ⊢
      obtain ⟨src, hsrc⟩ := mainAfterParse_runLoop_trace env c lf h
      rw [hsrc]
      constructor
      · simp [List.filter_append, filter_addFd_map_sys, MainEvent.isAddFd]
      · exact List.getLast?_concat _

/-- Witness for the amended C1: in the all-success run, the only
registration is standard input and the loop start is the last event. -/
theorem only_stdin_registered_witness :
    (mainRun envOk optsOk false).2.filter MainEvent.isAddFd =
      [MainEvent.addFd STDIN_FD consoleMask Callback.promptReadCb] ∧
    (mainRun envOk optsOk false).2.getLast? = some MainEvent.runLoop :=
  only_stdin_registered envOk optsOk false (by decide)

/-- Every early `return` from the option loop other than the help case
carries `EXIT_FAILURE`. -/
theorem processOpt_error_failure (env : MainEnv) (c : Config) (o : Opt) (e : Int)
    (h : processOpt env c o = Except.error e) (hne : o ≠ Opt.help) :
    e = EXIT_FAILURE := by
  cases o with
  | help => exact absurd rfl hne
  | verbose => simp [processOpt] at h
  | secLevel s =>
      simp only [processOpt] at h
      split_ifs at h <;> simp_all
  | mtu arg =>
      simp only [processOpt] at h
      split_ifs at h <;> simp_all
  | typ s =>
      simp only [processOpt] at h
      split_ifs at h <;> simp_all
  | dest s =>
      cases hb : env.str2ba s <;> simp_all [processOpt]
  | adapter s =>
      simp only [processOpt] at h
      split_ifs at h <;> simp_all
  | invalid => simp_all [processOpt]

/-- If the option list holds an option that the loop rejects whatever the
current state is, and no help option, the loop returns `EXIT_FAILURE`. -/
theorem parseOpts_fails_of_rejected (env : MainEnv) (o : Opt)
    (hrej : ∀ c, ∃ e, processOpt env c o = Except.error e) :
    ∀ (opts : List Opt) (c : Config), o ∈ opts → Opt.help ∉ opts →
      parseOpts env c opts = Except.error EXIT_FAILURE := by
  intro opts
  induction opts with
  | nil =>
      intro c ho _
      exact absurd ho (List.not_mem_nil _)
  | cons p rest ih =>
      intro c ho hh
      have hp : p ≠ Opt.help := by
        rintro rfl
        exact hh (List.mem_cons_self _ _)
      cases hpp : processOpt env c p with
      | error e =>
          have he := processOpt_error_failure env c p e hpp hp
          simp only [parseOpts, hpp, he]
      | ok c2 =>
          simp only [parseOpts, hpp]
          rcases List.mem_cons.mp ho with rfl | hmem
          · obtain ⟨e, he⟩ := hrej c
            rw [hpp] at he
            cases he
          · exact ih c2 hmem (fun hm => hh (List.mem_cons_of_mem p hm))

/-- When the option loop returns early, `main` returns that status with no
further action. -/
theorem mainRun_of_parse_error (env : MainEnv) (opts : List Opt) (lf : Bool)
    (e : Int) (h : parseOpts env initConfig opts = Except.error e) :
    mainRun env opts lf = (e, []) := by
  simp [mainRun, h]

/-- **C5.** If the command line holds a destination option whose address
string does not parse (and no help request), `main` exits with failure
status and no socket is ever allocated. -/
theorem bad_dest_fails_before_socket (env : MainEnv) (opts : List Opt) (lf : Bool)
    (s : String) (hmem : Opt.dest s ∈ opts) (hbad : env.str2ba s = none)
    (hh : Opt.help ∉ opts) :
    (mainRun env opts lf).1 = EXIT_FAILURE ∧
    ∀ e ∈ (mainRun env opts lf).2, MainEvent.isSocket e = false := by
  have hrej : ∀ c, ∃ e, processOpt env c (Opt.dest s) = Except.error e :=
    fun c => ⟨EXIT_FAILURE, by simp [processOpt, hbad]⟩
  have hp := parseOpts_fails_of_rejected env (Opt.dest s) hrej opts initConfig hmem hh
  rw [mainRun_of_parse_error env opts lf EXIT_FAILURE hp]
  exact ⟨rfl, fun e he => absurd he (List.not_mem_nil _)⟩

/-- An environment in which no address string parses. -/
def envBadDest : MainEnv :=
  { str2ba := fun _ => none, hci_devid := fun _ => -1,
    hci_devba := fun _ => none, sys := ⟨3, 0, 0, 0⟩, addFdRes := 0 }

/-- Witness for C5: an unparseable destination makes `main` fail with no
socket allocated. -/
theorem bad_dest_fails_before_socket_witness :
    (mainRun envBadDest [Opt.dest "zz"] false).1 = EXIT_FAILURE ∧
    ∀ e ∈ (mainRun envBadDest [Opt.dest "zz"] false).2,
      MainEvent.isSocket e = false :=
  bad_dest_fails_before_socket envBadDest [Opt.dest "zz"] false "zz"
    (List.mem_singleton.mpr rfl) rfl (by decide)

/-- **C6.** An unknown security-level name or an unknown address-type name
on the command line (with no help request) makes `main` exit with failure
status without attempting a connection. -/
theorem bad_sec_or_type_fails (env : MainEnv) (opts : List Opt) (lf : Bool)
    (s : String) (hh : Opt.help ∉ opts)
    (hbad : (Opt.secLevel s ∈ opts ∧ s ≠ "low" ∧ s ≠ "medium" ∧ s ≠ "high") ∨
            (Opt.typ s ∈ opts ∧ s ≠ "public" ∧ s ≠ "random")) :
    (mainRun env opts lf).1 = EXIT_FAILURE ∧
    ∀ e ∈ (mainRun env opts lf).2, MainEvent.isSocket e = false := by
  rcases hbad with ⟨hm, h1, h2, h3⟩ | ⟨hm, h1, h2⟩
  · have hrej : ∀ c, ∃ e, processOpt env c (Opt.secLevel s) = Except.error e :=
      fun c => ⟨EXIT_FAILURE, by simp [processOpt, h1, h2, h3]⟩
    have hp := parseOpts_fails_of_rejected env (Opt.secLevel s) hrej opts initConfig hm hh
    rw [mainRun_of_parse_error env opts lf EXIT_FAILURE hp]
    exact ⟨rfl, fun e he => absurd he (List.not_mem_nil _)⟩
  · have hrej : ∀ c, ∃ e, processOpt env c (Opt.typ s) = Except.error e :=
      fun c => ⟨EXIT_FAILURE, by simp [processOpt, h1, h2]⟩
    have hp := parseOpts_fails_of_rejected env (Opt.typ s) hrej opts initConfig hm hh
    rw [mainRun_of_parse_error env opts lf EXIT_FAILURE hp]
    exact ⟨rfl, fun e he => absurd he (List.not_mem_nil _)⟩

/-- Witness for C6: security level "none" is rejected with failure status
and no socket. -/
theorem bad_sec_or_type_fails_witness :
    (mainRun envOk [Opt.secLevel "none"] false).1 = EXIT_FAILURE ∧
    ∀ e ∈ (mainRun envOk [Opt.secLevel "none"] false).2,
      MainEvent.isSocket e = false :=
  bad_sec_or_type_fails envOk [Opt.secLevel "none"] false "none" (by decide)
    (Or.inl ⟨List.mem_singleton.mpr rfl, by decide, by decide, by decide⟩)

/-- **C7.** The MTU argument is accepted exactly when it lies in 1..65535;
an out-of-range MTU (with no help request) makes `main` exit with failure
status without attempting a connection. -/
theorem mtu_accepted_iff_in_range (env : MainEnv) (c : Config) (arg : Int)
    (opts : List Opt) (lf : Bool) :
    ((∃ c2, processOpt env c (Opt.mtu arg) = Except.ok c2) ↔
      (1 ≤ arg ∧ arg ≤ 65535)) ∧
    (Opt.mtu arg ∈ opts → Opt.help ∉ opts → (arg < 1 ∨ 65535 < arg) →
      (mainRun env opts lf).1 = EXIT_FAILURE ∧
      ∀ e ∈ (mainRun env opts lf).2, MainEvent.isSocket e = false) := by
  constructor
  · constructor
    · rintro ⟨c2, hc⟩
      simp only [processOpt] at hc
      constructor
      · by_contra hcon
        rw [if_pos (by omega)] at hc
        cases hc
      · by_contra hcon
        rw [if_neg (by omega), if_pos (by omega)] at hc
        cases hc
    · intro hr
      refine ⟨{ c with mtu := arg.toNat }, ?_⟩
      simp only [processOpt]
      rw [if_neg (by omega), if_neg (by omega)]
  · intro hmem hh hr
    have hrej : ∀ c2, ∃ e, processOpt env c2 (Opt.mtu arg) = Except.error e := by
      intro c2
      refine ⟨EXIT_FAILURE, ?_⟩
      simp only [processOpt]
      rcases hr with h | h
      · rw [if_pos (by omega)]
      · rw [if_neg (by omega), if_pos (by omega)]
    have hp := parseOpts_fails_of_rejected env (Opt.mtu arg) hrej opts initConfig hmem hh
    rw [mainRun_of_parse_error env opts lf EXIT_FAILURE hp]
    exact ⟨rfl, fun e he => absurd he (List.not_mem_nil _)⟩

/-- Witness for C7: MTU 70000 is out of range, `main` fails with no
socket; MTU 23 is accepted. -/
theorem mtu_accepted_iff_in_range_witness :
    (mainRun envOk [Opt.mtu 70000] false).1 = EXIT_FAILURE ∧
    (1 ≤ (23 : Int) ∧ (23 : Int) ≤ 65535) :=
  ⟨((mtu_accepted_iff_in_range envOk initConfig 70000 [Opt.mtu 70000] false).2
      (List.mem_singleton.mpr rfl) (by decide) (Or.inr (by decide))).1,
   (mtu_accepted_iff_in_range envOk initConfig 23 [] false).1.mp
      ⟨{ initConfig with mtu := 23 }, by rfl⟩⟩

/-- Only a security-level option changes the `sec` variable. -/
theorem processOpt_sec_preserved (env : MainEnv) (c : Config) (p : Opt) (cm : Config)
    (h : processOpt env c p = Except.ok cm) (hp : ∀ s, p ≠ Opt.secLevel s) :
    cm.sec = c.sec := by
  cases p with
  | help => cases h
  | verbose => cases h; rfl
  | secLevel s => exact absurd rfl (hp s)
  | mtu arg =>
      simp only [processOpt] at h
      split_ifs at h
      cases h
      rfl
  | typ s =>
      simp only [processOpt] at h
      split_ifs at h <;> (cases h; rfl)
  | dest s =>
      cases hb : env.str2ba s with
      | none => simp [processOpt, hb] at h
      | some a =>
          simp only [processOpt, hb] at h
          cases h
          rfl
  | adapter s =>
      simp only [processOpt] at h
      split_ifs at h
      cases h
      rfl
  | invalid => cases h

/-- Only an address-type option changes the `dst_type` variable. -/
theorem processOpt_dst_type_preserved (env : MainEnv) (c : Config) (p : Opt)
    (cm : Config) (h : processOpt env c p = Except.ok cm)
    (hp : ∀ s, p ≠ Opt.typ s) : cm.dst_type = c.dst_type := by
  cases p with
  | help => cases h
  | verbose => cases h; rfl
  | secLevel s =>
      simp only [processOpt] at h
      split_ifs at h <;> (cases h; rfl)
  | mtu arg =>
      simp only [processOpt] at h
      split_ifs at h
      cases h
      rfl
  | typ s => exact absurd rfl (hp s)
  | dest s =>
      cases hb : env.str2ba s with
      | none => simp [processOpt, hb] at h
      | some a =>
          simp only [processOpt, hb] at h
          cases h
          rfl
  | adapter s =>
      simp only [processOpt] at h
      split_ifs at h
      cases h
      rfl
  | invalid => cases h

/-- With no security-level option, the option loop leaves `sec` at its
initial value. -/
theorem parseOpts_sec_preserved (env : MainEnv) :
    ∀ (opts : List Opt) (c c2 : Config), parseOpts env c opts = Except.ok c2 →
      (∀ s, Opt.secLevel s ∉ opts) → c2.sec = c.sec := by
  intro opts
  induction opts with
  | nil =>
      intro c c2 h _
      cases h
      rfl
  | cons p rest ih =>
      intro c c2 h hn
      cases hpp : processOpt env c p with
      | error e => simp [parseOpts, hpp] at h
      | ok cm =>
          simp only [parseOpts, hpp] at h
          have hrest : ∀ s, Opt.secLevel s ∉ rest :=
            fun s hm => hn s (List.mem_cons_of_mem _ hm)
          have hhead : ∀ s, p ≠ Opt.secLevel s := by
            intro s he
            exact hn s (he ▸ List.mem_cons_self _ _)
          rw [ih cm c2 h hrest]
          exact processOpt_sec_preserved env c p cm hpp hhead

/-- With no address-type option, the option loop leaves `dst_type` at its
initial value. -/
theorem parseOpts_dst_type_preserved (env : MainEnv) :
    ∀ (opts : List Opt) (c c2 : Config), parseOpts env c opts = Except.ok c2 →
      (∀ s, Opt.typ s ∉ opts) → c2.dst_type = c.dst_type := by
  intro opts
  induction opts with
  | nil =>
      intro c c2 h _
      cases h
      rfl
  | cons p rest ih =>
      intro c c2 h hn
      cases hpp : processOpt env c p with
      | error e => simp [parseOpts, hpp] at h
      | ok cm =>
          simp only [parseOpts, hpp] at h
          have hrest : ∀ s, Opt.typ s ∉ rest :=
            fun s hm => hn s (List.mem_cons_of_mem _ hm)
          have hhead : ∀ s, p ≠ Opt.typ s := by
            intro s he
            exact hn s (he ▸ List.mem_cons_self _ _)
          rw [ih cm c2 h hrest]
          exact processOpt_dst_type_preserved env c p cm hpp hhead

/-- Every connector syscall in a `main` trace comes from the single
connect attempt made with the parsed configuration. -/
theorem mainAfterParse_sys_mem (env : MainEnv) (c : Config) (lf : Bool)
    (e : SysEvent) (h : MainEvent.sys e ∈ (mainAfterParse env c lf).2) :
    ∃ src, e ∈ (l2cap_le_att_connect env.sys src c.dst_addr c.dst_type c.sec).2 := by
  by_cases hlf : lf
  · simp [mainAfterParse, hlf] at h
  · rcases hs : (if c.dev_id = -1 then some BDADDR_ANY else env.hci_devba c.dev_id)
      with _ | src
    · simp [mainAfterParse, hlf, hs] at h
    · by_cases hd : c.dst_addr_given
      · by_cases hr : (l2cap_le_att_connect env.sys src c.dst_addr c.dst_type c.sec).1 < 0
        · refine ⟨src, ?_⟩
          simp only [mainAfterParse, hlf, if_false, hs, hd, hr] at h
          simpa using h
        · by_cases ha : env.addFdRes < 0
          · refine ⟨src, ?_⟩
            simp only [mainAfterParse, hlf, if_false, hs, hd, hr, ha] at h
            simpa using h
          · refine ⟨src, ?_⟩
            simp only [mainAfterParse, hlf, if_false, hs, hd, hr, ha] at h
            simpa using h
      · simp [mainAfterParse, hlf, hs, hd] at h

/-- Lifting `mainAfterParse_sys_mem` through the option loop. -/
theorem mainRun_sys_mem (env : MainEnv) (opts : List Opt) (lf : Bool)
    (e : SysEvent) (h : MainEvent.sys e ∈ (mainRun env opts lf).2) :
    ∃ c src, parseOpts env initConfig opts = Except.ok c ∧
      e ∈ (l2cap_le_att_connect env.sys src c.dst_addr c.dst_type c.sec).2 := by
  cases hp : parseOpts env initConfig opts with
  | error e2 =>
      simp only [mainRun, hp] at h
      exact absurd h (List.not_mem_nil _)
  | ok c =>
      simp only [mainRun, hp] at h
      obtain ⟨src, hsrc⟩ := mainAfterParse_sys_mem env c lf e h
      exact ⟨c, src, rfl, hsrc⟩

/-- **C8.** With no security-level option on the command line, any connect
attempt applies security level low; with no address-type option, any
connect targets a destination with address type public. -/
theorem omitted_options_default_low_public (env : MainEnv) (opts : List Opt)
    (lf : Bool) :
    ((∀ s, Opt.secLevel s ∉ opts) →
      ∀ fd lv optname sl,
        MainEvent.sys (SysEvent.setsockoptCall fd lv optname sl) ∈
          (mainRun env opts lf).2 → sl = BT_SECURITY_LOW) ∧
    ((∀ s, Opt.typ s ∉ opts) →
      ∀ fd a, MainEvent.sys (SysEvent.connectCall fd a) ∈ (mainRun env opts lf).2 →
        a.l2_bdaddr_type = BDADDR_LE_PUBLIC) := by
  constructor
  · intro hn fd lv optname sl hmem
    obtain ⟨c, src, hp, hin⟩ := mainRun_sys_mem env opts lf _ hmem
    have hsec := parseOpts_sec_preserved env opts initConfig c hp hn
    have harg := l2cap_sso_arg env.sys src c.dst_addr c.dst_type c.sec
      fd lv optname sl hin
    rw [harg, hsec]
    rfl
  · intro hn fd a hmem
    obtain ⟨c, src, hp, hin⟩ := mainRun_sys_mem env opts lf _ hmem
    have hty := parseOpts_dst_type_preserved env opts initConfig c hp hn
    have harg := l2cap_conn_arg env.sys src c.dst_addr c.dst_type c.sec fd a hin
    rw [harg]
    exact hty

/-- Witness for C8: in the all-success run with neither option given, the
applied security level is low (1) and the connect destination has address
type public (1). -/
theorem omitted_options_default_low_public_witness :
    (1 : Nat) = BT_SECURITY_LOW ∧
    (dstaddrOf ⟨1⟩ BDADDR_LE_PUBLIC).l2_bdaddr_type = BDADDR_LE_PUBLIC :=
  ⟨(omitted_options_default_low_public envOk optsOk false).1
      (by intro s hs; simp [optsOk] at hs) 7 SOL_BLUETOOTH BT_SECURITY 1 (by decide),
   (omitted_options_default_low_public envOk optsOk false).2
      (by intro s hs; simp [optsOk] at hs) 7 (dstaddrOf ⟨1⟩ BDADDR_LE_PUBLIC)
      (by decide)⟩

/-- Two option-loop states that agree on everything except the stored
`mtu` value. -/
def cfgEqExceptMtu (c1 c2 : Config) : Prop :=
  c1.sec = c2.sec ∧ c1.dst_type = c2.dst_type ∧
  c1.dst_addr_given = c2.dst_addr_given ∧ c1.dst_addr = c2.dst_addr ∧
  c1.dev_id = c2.dev_id ∧ c1.verbose = c2.verbose

/-- One option-loop step treats two states that differ only in `mtu`
identically: same early return, or results again differing only in
`mtu`. -/
theorem processOpt_congr_mtu (env : MainEnv) (o : Opt) (c1 c2 : Config)
    (h : cfgEqExceptMtu c1 c2) :
    (∃ e, processOpt env c1 o = Except.error e ∧
      processOpt env c2 o = Except.error e) ∨
    (∃ d1 d2, processOpt env c1 o = Except.ok d1 ∧
      processOpt env c2 o = Except.ok d2 ∧ cfgEqExceptMtu d1 d2) := by
  obtain ⟨h1, h2, h3, h4, h5, h6⟩ := h
  cases o with
  | help => exact Or.inl ⟨_, rfl, rfl⟩
  | invalid => exact Or.inl ⟨_, rfl, rfl⟩
  | verbose => exact Or.inr ⟨_, _, rfl, rfl, ⟨h1, h2, h3, h4, h5, rfl⟩⟩
  | secLevel s =>
      simp only [processOpt]
      split_ifs <;>
        first
          | exact Or.inl ⟨_, rfl, rfl⟩
          | exact Or.inr ⟨_, _, rfl, rfl, ⟨rfl, h2, h3, h4, h5, h6⟩⟩
  | mtu arg =>
      simp only [processOpt]
      split_ifs <;>
        first
          | exact Or.inl ⟨_, rfl, rfl⟩
          | exact Or.inr ⟨_, _, rfl, rfl, ⟨h1, h2, h3, h4, h5, h6⟩⟩
  | typ s =>
      simp only [processOpt]
      split_ifs <;>
        first
          | exact Or.inl ⟨_, rfl, rfl⟩
          | exact Or.inr ⟨_, _, rfl, rfl, ⟨h1, rfl, h3, h4, h5, h6⟩⟩
  | dest s =>
      cases hb : env.str2ba s with
      | none =>
          exact Or.inl ⟨EXIT_FAILURE, by simp [processOpt, hb],
            by simp [processOpt, hb]⟩
      | some a =>
          exact Or.inr ⟨{ c1 with dst_addr := a, dst_addr_given := true },
            { c2 with dst_addr := a, dst_addr_given := true },
            by simp [processOpt, hb], by simp [processOpt, hb],
            ⟨h1, h2, rfl, rfl, h5, h6⟩⟩
  | adapter s =>
      simp only [processOpt]
      split_ifs <;>
        first
          | exact Or.inl ⟨_, rfl, rfl⟩
          | exact Or.inr ⟨_, _, rfl, rfl, ⟨h1, h2, h3, h4, rfl, h6⟩⟩

/-- The whole option loop treats two states that differ only in `mtu`
identically. -/
theorem parseOpts_congr_mtu (env : MainEnv) :
    ∀ (opts : List Opt) (c1 c2 : Config), cfgEqExceptMtu c1 c2 →
      (∃ e, parseOpts env c1 opts = Except.error e ∧
        parseOpts env c2 opts = Except.error e) ∨
      (∃ d1 d2, parseOpts env c1 opts = Except.ok d1 ∧
        parseOpts env c2 opts = Except.ok d2 ∧ cfgEqExceptMtu d1 d2) := by
  intro opts
  induction opts with
  | nil =>
      intro c1 c2 h
      exact Or.inr ⟨c1, c2, rfl, rfl, h⟩
  | cons o rest ih =>
      intro c1 c2 h
      rcases processOpt_congr_mtu env o c1 c2 h with ⟨e, he1, he2⟩ | ⟨d1, d2, hd1, hd2, hd⟩
      · exact Or.inl ⟨e, by simp [parseOpts, he1], by simp [parseOpts, he2]⟩
      · rcases ih d1 d2 hd with ⟨e, he1, he2⟩ | ⟨f1, f2, hf1, hf2, hf⟩
        · exact Or.inl ⟨e, by simp [parseOpts, hd1, he1], by simp [parseOpts, hd2, he2]⟩
        · exact Or.inr ⟨f1, f2, by simp [parseOpts, hd1, hf1],
            by simp [parseOpts, hd2, hf2], hf⟩

/-- The option loop over a concatenation runs the two halves in
sequence. -/
theorem parseOpts_append (env : MainEnv) :
    ∀ (xs ys : List Opt) (c : Config),
      parseOpts env c (xs ++ ys) =
        match parseOpts env c xs with
        | Except.error e => Except.error e
        | Except.ok c2 => parseOpts env c2 ys := by
  intro xs
  induction xs with
  | nil => intro ys c; rfl
  | cons o rest ih =>
      intro ys c
      cases hpo : processOpt env c o with
      | error e => simp [parseOpts, hpo]
      | ok c2 => simp [parseOpts, hpo, ih]

/-- Everything `main` does after the option loop reads only the
configuration fields other than `mtu`. -/
theorem mainAfterParse_congr_mtu (env : MainEnv) (c1 c2 : Config) (lf : Bool)
    (h : cfgEqExceptMtu c1 c2) :
    mainAfterParse env c1 lf = mainAfterParse env c2 lf := by
  obtain ⟨h1, h2, h3, h4, h5, h6⟩ := h
  simp only [mainAfterParse, h1, h2, h3, h4, h5]

/-- **C9.** Two command lines that differ only in the (in-range) value of
the MTU option lead to identical behaviour: the same exit status and the
same event trace — the stored MTU value is never used after validation. -/
theorem mtu_value_no_observable_effect (env : MainEnv) (pre post : List Opt)
    (lf : Bool) (a1 a2 : Int) (h1 : 1 ≤ a1) (h2 : a1 ≤ 65535)
    (h3 : 1 ≤ a2) (h4 : a2 ≤ 65535) :
    mainRun env (pre ++ Opt.mtu a1 :: post) lf =
      mainRun env (pre ++ Opt.mtu a2 :: post) lf := by
  cases hp : parseOpts env initConfig pre with
  | error e =>
      have q1 : parseOpts env initConfig (pre ++ Opt.mtu a1 :: post) =
          Except.error e := by
        rw [parseOpts_append, hp]
      have q2 : parseOpts env initConfig (pre ++ Opt.mtu a2 :: post) =
          Except.error e := by
        rw [parseOpts_append, hp]
      rw [mainRun_of_parse_error env _ lf e q1, mainRun_of_parse_error env _ lf e q2]
  | ok c =>
      have e1 : processOpt env c (Opt.mtu a1) =
          Except.ok { c with mtu := a1.toNat } := by
        simp only [processOpt]
        rw [if_neg (by omega), if_neg (by omega)]
      have e2 : processOpt env c (Opt.mtu a2) =
          Except.ok { c with mtu := a2.toNat } := by
        simp only [processOpt]
        rw [if_neg (by omega), if_neg (by omega)]
      have q1 : parseOpts env initConfig (pre ++ Opt.mtu a1 :: post) =
          parseOpts env { c with mtu := a1.toNat } post := by
        rw [parseOpts_append, hp]
        simp [parseOpts, e1]
      have q2 : parseOpts env initConfig (pre ++ Opt.mtu a2 :: post) =
          parseOpts env { c with mtu := a2.toNat } post := by
        rw [parseOpts_append, hp]
        simp [parseOpts, e2]
      have hcc : cfgEqExceptMtu { c with mtu := a1.toNat } { c with mtu := a2.toNat } :=
        ⟨rfl, rfl, rfl, rfl, rfl, rfl⟩
      rcases parseOpts_congr_mtu env post _ _ hcc with ⟨e, he1, he2⟩ | ⟨d1, d2, hd1, hd2, hd⟩
      · rw [mainRun_of_parse_error env _ lf e (q1.trans he1),
          mainRun_of_parse_error env _ lf e (q2.trans he2)]
      · have m1 : mainRun env (pre ++ Opt.mtu a1 :: post) lf = mainAfterParse env d1 lf := by
          simp [mainRun, q1.trans hd1]
        have m2 : mainRun env (pre ++ Opt.mtu a2 :: post) lf = mainAfterParse env d2 lf := by
          simp [mainRun, q2.trans hd2]
        rw [m1, m2]
        exact mainAfterParse_congr_mtu env d1 d2 lf hd

/-- Witness for C9: MTU 23 and MTU 512 give identical runs. -/
theorem mtu_value_no_observable_effect_witness :
    mainRun envOk ([] ++ Opt.mtu 23 :: optsOk) false =
      mainRun envOk ([] ++ Opt.mtu 512 :: optsOk) false :=
  mtu_value_no_observable_effect envOk [] optsOk false 23 512
    (by decide) (by decide) (by decide) (by decide)
